import Mathlib

/-!
Shallow embedding of the Ontology blockchain adapter
(src/ontology/ontology.js) and proofs about its specified behaviour.

The adapter file is embedded directly.  Collaborators that the adapter
calls but whose code is not under src/ (the TxStatus record from
src/comm/transaction.js, the network transport in src/ontology/net_util.js,
and the external ontology SDK and crypto library) are modelled from the
specification, each in a definition whose doc comment says so.
-/

/-- Modelled from the spec: the Parameter value type of the external SDK
(spec section 4.2): a named, typed parameter slot holding a bound positional
argument.  The value is Option-valued because binding reads the positional
argument list at an index that may be out of range, which in the source
language yields the undefined value rather than an error. -/
structure Parameter where
  name : String
  ptype : String
  value : Option String
deriving Repr, DecidableEq

/-- Modelled from the spec: a function descriptor of an ABI description
(spec section 3): a name and an ordered list of typed parameters. -/
structure AbiFunction where
  name : String
  parameters : List Parameter
deriving Repr, DecidableEq

/-- Modelled from the spec: an ABI description (spec section 3): an ordered
set of named functions.  The adapter additionally stores the raw bytecode on
the same object (ontology.js line 73, abiInfo.vmCode = vmCode), so the field
is part of the registry entry; it is empty until install sets it. -/
structure AbiInfo where
  functions : List AbiFunction
  vmCode : String := ""
deriving Repr, DecidableEq

/-- Modelled from the spec: AbiInfo.getFunction of the external SDK,
as the adapter relies on it (ontology.js lines 133-134 check the result
against the undefined value): look up the named function in the ABI and
return a fresh descriptor, or none when no function name was supplied or the
name is absent from the ABI (spec section 4.2). -/
def AbiInfo.getFunction (a : AbiInfo) (name : Option String) : Option AbiFunction :=
  match name with
  | none => none
  | some n => a.functions.find? (fun f => f.name = n)

/-- Modelled from the spec: AbiFunction.setParamsValue of the external SDK:
replace the parameter slot whose name matches the given parameter
(spec section 4.2, binding each argument to its declared parameter slot). -/
def AbiFunction.setParamsValue (f : AbiFunction) (p : Parameter) : AbiFunction :=
  { f with parameters := f.parameters.map (fun q => if q.name = p.name then p else q) }

/-- The contract registry, this.contractAbiInfo: a JavaScript Map from
contract name to ABI description (ontology.js line 42). -/
abbrev Registry := List (String × AbiInfo)

/-- JavaScript Map.prototype.set as used on this.contractAbiInfo
(ontology.js line 74): insert, or overwrite the value at an existing key. -/
def mapSet (m : Registry) (k : String) (v : AbiInfo) : Registry :=
  match m with
  | [] => [(k, v)]
  | (k0, v0) :: rest => if k0 = k then (k, v) :: rest else (k0, v0) :: mapSet rest k v

/-- JavaScript Map.prototype.get as used on this.contractAbiInfo
(ontology.js line 129): the value at the key, or none (undefined). -/
def mapGet (m : Registry) (k : String) : Option AbiInfo :=
  match m with
  | [] => none
  | (k0, v0) :: rest => if k0 = k then some v0 else mapGet rest k

/-- Modelled from the spec: the transaction status record
(src/comm/transaction.js, not included under src/): a transaction hash
identifier plus a binary outcome flag, created in the default non-failed
pending state (spec section 3, Transaction Status). -/
structure TxStatus where
  id : String
  failed : Bool
deriving Repr, DecidableEq

/-- Modelled from the spec: the TxStatus constructor, new TxStatus(txHash):
the record starts in its default non-failed state. -/
def TxStatus.create (txHash : String) : TxStatus := { id := txHash, failed := false }

/-- Modelled from the spec: TxStatus.SetStatusFail sets the failed flag. -/
def SetStatusFail (s : TxStatus) : TxStatus := { s with failed := true }

/-- Modelled from the spec: TxStatus.GetID returns the transaction hash. -/
def TxStatus.GetID (s : TxStatus) : String := s.id

/-- Observable actions the adapter performs, in program order: binding one
parameter slot, signing a transaction, creating a status record, writing a
log line, posting a serialized transaction to the transport, sleeping. -/
inductive Effect where
  | bindParam (name : String)
  | sign
  | mkStatus (s : TxStatus)
  | logE (msg : String)
  | post (serialized : String)
  | sleep (ms : Nat)
deriving Repr, DecidableEq

/-- The status records a trace creates (the new TxStatus(...) steps). -/
def statusRecords (trace : List Effect) : List TxStatus :=
  trace.filterMap (fun e =>
    match e with
    | Effect.mkStatus s => some s
    | _ => none)

/-- The callback passed to NetUtil.postTx(...).then in both transfer and
invokeSmartContract (ontology.js lines 109-116 and 148-155).  result is the
transport acknowledgement, an integer per the spec (section 6: immediate
acknowledgement, negative on failure; net_util.js is not under src/).  When
result < 0 the code sets the failure flag on the status record and then
evaluates result.GetID() in its log call; a number has no GetID method in
the source language, so that expression throws a TypeError and the promise
rejects instead of returning the failed record.  Otherwise the log line is
written and the status record is returned unchanged. -/
def postTxThen (result : Int) (invokeStatus : TxStatus) : Except String TxStatus :=
  if result < 0 then
    let _failedStatus := SetStatusFail invokeStatus
    Except.error "TypeError: result.GetID is not a function"
  else
    Except.ok invokeStatus

/-- The synchronous part of a submission: the status record it created and
the effects it performed, in order.  The promise resolution is modelled
separately by postTxThen applied to the transport result. -/
structure Pending where
  invokeStatus : TxStatus
  effects : List Effect
deriving Repr, DecidableEq

/-- transfer (ontology.js lines 107-117): create the status record from the
caller-supplied hash, post the caller-supplied payload, and hand the record
to the postTxThen callback when the transport answers. -/
def transfer (txHash : String) (txData : String) : Pending :=
  { invokeStatus := TxStatus.create txHash
    effects := [Effect.mkStatus (TxStatus.create txHash), Effect.post txData] }

/-- The loop of waitABlock (ontology.js lines 187-199).  heights i is the
value the i-th call to getHeight returns; heights 0 is the baseline read
outside the loop.  Each iteration polls the height once; if the new reading
is strictly greater than the baseline the loop breaks, otherwise it sleeps
1000 milliseconds and retries.  fuel bounds how many iterations are
examined, so a run the source never finishes is the none case; on
termination the result is the index of the final poll together with the
accumulated sleep effects. -/
def waitGo (heights : Nat → Int) : Nat → Nat → List Effect → Option (Nat × List Effect)
  | 0, _, _ => none
  | fuel + 1, i, acc =>
      if heights i > heights 0 then some (i, acc)
      else waitGo heights fuel (i + 1) (acc ++ [Effect.sleep 1000])

/-- waitABlock (ontology.js lines 187-199): baseline read, then the poll
loop starting with the first re-read, getHeight call number 1. -/
def waitABlockTrace (heights : Nat → Int) (fuel : Nat) : Option (Nat × List Effect) :=
  waitGo heights fuel 1 []

/-- Modelled from the spec: ontSdk.utils.reverseHex, the byte-order reversal
of a hex string used when deriving the displayed transaction hash
(spec section 4.4, ontology.js lines 75 and 145): the string is reversed two
characters (one byte) at a time. -/
def reverseHexChars : List Char → List Char
  | a :: b :: rest => reverseHexChars rest ++ [a, b]
  | rest => rest

/-- Modelled from the spec: reverseHex on strings. -/
def reverseHex (s : String) : String := String.mk (reverseHexChars s.data)

/-- Stable textual encoding of one bound parameter slot, used by the
modelled transaction hashing and serialization. -/
def Parameter.enc (p : Parameter) : String :=
  p.name ++ ":" ++ p.ptype ++ ":" ++
    (match p.value with
     | none => "undefined"
     | some v => v)

/-- Stable textual encoding of a parameter list. -/
def encParams (ps : List Parameter) : String :=
  String.intercalate "," (ps.map Parameter.enc)

/-- Modelled from the spec: ontSdk.Crypto.Address.fromVmCode, the
deterministic derivation of a contract address from its bytecode
(spec section 6, crypto library collaborator). -/
def addressFromVmCode (vmCode : String) : String := "addr(" ++ vmCode ++ ")"

/-- Modelled from the spec: an invoke transaction as built by
ontSdk.TransactionBuilder.makeInvokeTransaction (ontology.js lines 142-143):
the bound function name and parameters, the contract address, the fixed gas
price and limit, the payer, and the signature applied later. -/
structure InvokeTx where
  funcname : String
  parameters : List Parameter
  contractAddr : String
  gasPrice : String
  gasLimit : String
  payer : String
  signedWith : Option String := none
deriving Repr, DecidableEq

/-- Modelled from the spec: ontSdk.TransactionBuilder.makeInvokeTransaction
produces the unsigned invoke transaction from its arguments. -/
def makeInvokeTransaction (funcname : String) (parameters : List Parameter)
    (contractAddr : String) (gasPrice : String) (gasLimit : String) (payer : String) :
    InvokeTx :=
  { funcname := funcname, parameters := parameters, contractAddr := contractAddr,
    gasPrice := gasPrice, gasLimit := gasLimit, payer := payer }

/-- Modelled from the spec: ontSdk.TransactionBuilder.signTransaction on an
invoke transaction: a pure operation attaching the signature derived from
the private key (spec section 4.3). -/
def signInvokeTx (tx : InvokeTx) (privateKey : String) : InvokeTx :=
  { tx with signedWith := some privateKey }

/-- Stable textual encoding of the full content of an invoke transaction. -/
def InvokeTx.enc (tx : InvokeTx) : String :=
  "invoke|" ++ tx.funcname ++ "|" ++ encParams tx.parameters ++ "|" ++ tx.contractAddr ++
    "|" ++ tx.gasPrice ++ "|" ++ tx.gasLimit ++ "|" ++ tx.payer ++ "|" ++
    (match tx.signedWith with
     | none => "unsigned"
     | some k => "signed:" ++ k)

/-- Modelled from the spec: tx.getHash(), the deterministic content hash of
a transaction (spec section 6); modelled as an injective encoding of the
signed content, since the claims depend only on the hash being a stable
function of the signed transaction, not on its cryptographic form. -/
def InvokeTx.getHash (tx : InvokeTx) : String := "hash(" ++ tx.enc ++ ")"

/-- Modelled from the spec: tx.serialize(), the wire encoding of a signed
transaction handed to the transport (spec section 4.4). -/
def InvokeTx.serialize (tx : InvokeTx) : String := "ser(" ++ tx.enc ++ ")"

/-- Modelled from the spec: a deploy transaction as built by
ontSdk.TransactionBuilder.makeDeployCodeTransaction (ontology.js lines
66-67), fields in source argument order. -/
structure DeployTx where
  vmCode : String
  name : String
  codeVersion : String
  author : String
  email : String
  desp : String
  needStorage : Bool
  gasPrice : String
  gasLimit : String
  payer : String
  signedWith : Option String := none
deriving Repr, DecidableEq

/-- Modelled from the spec: makeDeployCodeTransaction produces the unsigned
deploy transaction from its arguments. -/
def makeDeployCodeTransaction (vmCode name codeVersion author email desp : String)
    (needStorage : Bool) (gasPrice gasLimit payer : String) : DeployTx :=
  { vmCode := vmCode, name := name, codeVersion := codeVersion, author := author,
    email := email, desp := desp, needStorage := needStorage, gasPrice := gasPrice,
    gasLimit := gasLimit, payer := payer }

/-- Modelled from the spec: signTransaction on a deploy transaction. -/
def signDeployTx (tx : DeployTx) (privateKey : String) : DeployTx :=
  { tx with signedWith := some privateKey }

/-- Stable textual encoding of the full content of a deploy transaction. -/
def DeployTx.enc (tx : DeployTx) : String :=
  "deploy|" ++ tx.vmCode ++ "|" ++ tx.name ++ "|" ++ tx.codeVersion ++ "|" ++ tx.author ++
    "|" ++ tx.email ++ "|" ++ tx.desp ++ "|" ++ (if tx.needStorage then "t" else "f") ++
    "|" ++ tx.gasPrice ++ "|" ++ tx.gasLimit ++ "|" ++ tx.payer ++ "|" ++
    (match tx.signedWith with
     | none => "unsigned"
     | some k => "signed:" ++ k)

/-- Modelled from the spec: getHash() of a deploy transaction. -/
def DeployTx.getHash (tx : DeployTx) : String := "hash(" ++ tx.enc ++ ")"

/-- Modelled from the spec: serialize() of a deploy transaction. -/
def DeployTx.serialize (tx : DeployTx) : String := "ser(" ++ tx.enc ++ ")"

/-- The adapter state the embedded methods touch: the decrypted private
key, the active account address, and the contract registry. -/
structure Ontology where
  privateKey : String
  accountAddress : String
  contractAbiInfo : Registry
deriving Repr, DecidableEq

/-- The caller argument object of invokeSmartContract: func is none when
the object has no func field; args is the positional argument list. -/
structure InvokeArgs where
  func : Option String
  args : List String
deriving Repr, DecidableEq

/-- The argument binding loop of invokeSmartContract (ontology.js lines
137-141): for each index below the current parameter count, build a
Parameter from the slot name and type at that index and the positional
argument there (undefined, that is none, when the list is too short), and
apply setParamsValue.  Records one bindParam effect per iteration. -/
def bindLoop (argsList : List String) (i : Nat) (abiFunc : AbiFunction)
    (acc : List Effect) : AbiFunction × List Effect :=
  if h : i < abiFunc.parameters.length then
    let q := abiFunc.parameters.get ⟨i, h⟩
    let param : Parameter := { name := q.name, ptype := q.ptype, value := argsList.get? i }
    bindLoop argsList (i + 1) (abiFunc.setParamsValue param)
      (acc ++ [Effect.bindParam param.name])
  else (abiFunc, acc)
termination_by abiFunc.parameters.length - i
decreasing_by
  simp [AbiFunction.setParamsValue]
  omega

/-- The signed invoke transaction built by the success path of
invokeSmartContract (ontology.js lines 137-144): bind the positional
arguments into the fresh function descriptor, build the invoke transaction
on the address derived from the registered bytecode with the fixed gas
price 0 and gas limit 20000000 and the account as payer, and sign it. -/
def invokeTxOf (ont : Ontology) (abiInfo : AbiInfo) (abiFunc0 : AbiFunction)
    (argv : List String) : InvokeTx :=
  signInvokeTx
    (makeInvokeTransaction (bindLoop argv 0 abiFunc0 []).1.name
      (bindLoop argv 0 abiFunc0 []).1.parameters
      (addressFromVmCode abiInfo.vmCode) "0" "20000000" ont.accountAddress)
    ont.privateKey

/-- The success path of invokeSmartContract after the two precondition
checks (ontology.js lines 137-155): the status record built from the
reversed hash of the signed transaction, and the effect trace in source
order: parameter binding, signing, status creation, the log line, and the
network post of the serialized transaction. -/
def invokePending (ont : Ontology) (abiInfo : AbiInfo) (abiFunc0 : AbiFunction)
    (argv : List String) : Pending :=
  let tx := invokeTxOf ont abiInfo abiFunc0 argv
  let txHash := reverseHex tx.getHash
  let invokeStatus := TxStatus.create txHash
  { invokeStatus := invokeStatus
    effects := (bindLoop argv 0 abiFunc0 []).2 ++ [Effect.sign,
      Effect.mkStatus invokeStatus, Effect.logE ("invoke " ++ txHash),
      Effect.post tx.serialize] }

/-- invokeSmartContract (ontology.js lines 128-156).  The context,
contractVer and timeout parameters are carried with the types and values the
caller chose.  Returns the adapter state after the call together with either
the thrown error or the pending submission: the status record created at
line 146 and the effect trace (parameter binding, signing, status creation,
log line, network post, in source order).  Resolution of the returned
promise is modelled by postTxThen applied to the transport result. -/
def invokeSmartContract {α β γ : Type} (ont : Ontology) (context : α)
    (contractID : String) (contractVer : β) (args : InvokeArgs) (timeout : γ) :
    Ontology × Except String Pending :=
  match mapGet ont.contractAbiInfo contractID with
  | none => (ont, Except.error "the contract doesn\x27t deploy!")
  | some abiInfo =>
    match abiInfo.getFunction args.func with
    | none => (ont, Except.error "not define invoke contract func!")
    | some abiFunc0 =>
      if args.func.isNone then
        (ont, Except.error "not define invoke contract func!")
      else (ont, Except.ok (invokePending ont abiInfo abiFunc0 args.args))

/-- One contract entry of this.contractConfig (spec section 3, Contract
Descriptor): name, version, author, email, description, storage flag,
bytecode path and ABI description path. -/
structure ContractConfigItem where
  name : String
  version : String
  author : String
  email : String
  description : String
  needStorage : Bool
  path : String
  abi : String
deriving Repr, DecidableEq

/-- The forEach body of installSmartContract (ontology.js lines 58-77),
folded over the configured contracts: read the bytecode, build and sign the
deploy transaction, post it, parse the ABI description, attach the bytecode
to it, register it under the contract name, and log the reversed hash.
fsRead models fs.readFileSync and parseAbi models ontSdk.AbiInfo.parseJson,
both external to the adapter. -/
def installStep (fsRead : String → String) (parseAbi : String → AbiInfo)
    (acc : Ontology × List Effect) (item : ContractConfigItem) :
    Ontology × List Effect :=
  let st := acc.1
  let vmCode := fsRead item.path
  let tx := makeDeployCodeTransaction vmCode item.name item.version item.author
    item.email item.description item.needStorage "0" "20000000" st.accountAddress
  let tx := signDeployTx tx st.privateKey
  let abiInfo := parseAbi (fsRead item.abi)
  let abiInfo := { abiInfo with vmCode := vmCode }
  let txHash := reverseHex tx.getHash
  ({ st with contractAbiInfo := mapSet st.contractAbiInfo item.name abiInfo },
   acc.2 ++ [Effect.sign, Effect.post tx.serialize,
     Effect.logE ("deploy " ++ txHash)])

/-- The forEach of installSmartContract, folded over the configured
contracts starting from the current adapter state and an empty trace. -/
def installLoop (ont : Ontology) (fsRead : String → String)
    (parseAbi : String → AbiInfo) (contractConfig : List ContractConfigItem) :
    Ontology × List Effect :=
  contractConfig.foldl (installStep fsRead parseAbi) (ont, [])

/-- installSmartContract (ontology.js lines 57-80): the deployment loop
followed by await this.waitABlock().  heights and fuel feed the poll loop as
in waitABlockTrace; none is the run in which waitABlock never returns.  The
source method resolves with no value, so the some case carries only the new
adapter state and the effect trace. -/
def installSmartContract (ont : Ontology) (fsRead : String → String)
    (parseAbi : String → AbiInfo) (contractConfig : List ContractConfigItem)
    (heights : Nat → Int) (fuel : Nat) : Option (Ontology × List Effect) :=
  let deployed := installLoop ont fsRead parseAbi contractConfig
  match waitABlockTrace heights fuel with
  | none => none
  | some (_, sleeps) => some (deployed.1, deployed.2 ++ sleeps)

/-- Wallet-level scrypt key-derivation parameters (ontology.js lines 31-36). -/
structure WalletScrypt where
  n : Nat
  r : Nat
  p : Nat
  dkLen : Nat
deriving Repr, DecidableEq

/-- One wallet account: address, base64 salt and encrypted key blob
(spec section 3, Account). -/
structure WalletAccount where
  address : String
  salt : String
  encryptedKey : String
deriving Repr, DecidableEq

/-- The parsed wallet: its accounts and its scrypt settings. -/
structure Wallet where
  accounts : List WalletAccount
  scrypt : WalletScrypt
deriving Repr, DecidableEq

/-- The decryptParam object assembled at ontology.js lines 31-36. -/
structure DecryptParam where
  cost : Nat
  blockSize : Nat
  parallel : Nat
  size : Nat
deriving Repr, DecidableEq

/-- The try block of the constructor (ontology.js lines 28-39): select the
first account (the selection itself is outside the try, but its first
dereference is inside, so an empty account list also faults here), decode
its salt, assemble the KDF parameters, and decrypt the encrypted key.
base64ToHex models the Buffer base64-to-hex conversion and decrypt models
ontSdk.Crypto.PrivateKey.decrypt, which per the spec (section 6) fails on a
wrong passphrase or corrupt input; both are external collaborators. -/
def ontologyConstructorTry (wallet : Wallet) (password : String)
    (base64ToHex : String → String)
    (decrypt : String → String → String → String → DecryptParam → Except String String) :
    Except String (WalletAccount × String) :=
  match wallet.accounts.get? 0 with
  | none => Except.error "TypeError: cannot read salt of undefined"
  | some account =>
    let saltHex := base64ToHex account.salt
    let decryptParam : DecryptParam :=
      { cost := wallet.scrypt.n, blockSize := wallet.scrypt.r,
        parallel := wallet.scrypt.p, size := wallet.scrypt.dkLen }
    match decrypt account.encryptedKey password account.address saltHex decryptParam with
    | Except.error e => Except.error e
    | Except.ok privateKey => Except.ok (account, privateKey)

/-- The constructor of the Ontology class (ontology.js lines 19-43), from
the parsed wallet on: any error inside the try block is caught and rethrown
as the single error at line 40, and on success the adapter starts with the
decrypted key, the first account, and an empty contract registry (line 42). -/
def ontologyConstructor (wallet : Wallet) (password : String)
    (base64ToHex : String → String)
    (decrypt : String → String → String → String → DecryptParam → Except String String) :
    Except String Ontology :=
  match ontologyConstructorTry wallet password base64ToHex decrypt with
  | Except.error _ => Except.error "decrypt wallet failed"
  | Except.ok ok =>
    Except.ok { privateKey := ok.2, accountAddress := ok.1.address, contractAbiInfo := [] }

lemma waitGo_stuck (heights : Nat → Int) :
    ∀ (fuel i : Nat) (acc : List Effect),
      (∀ j, i ≤ j → heights j ≤ heights 0) →
      waitGo heights fuel i acc = none := by
  intro fuel
  induction fuel with
  | zero => intro i acc _; rfl
  | succ f ih =>
    intro i acc h
    have hnot : ¬ heights 0 < heights i := not_lt.mpr (h i le_rfl)
    rw [waitGo, if_neg hnot]
    exact ih (i + 1) _ (fun j hj => h j (by omega))

lemma waitGo_reaches (heights : Nat → Int) :
    ∀ (fuel i k : Nat) (acc : List Effect), i ≤ k → k - i < fuel →
      heights 0 < heights k →
      (∀ j, i ≤ j → j < k → heights j ≤ heights 0) →
      waitGo heights fuel i acc
        = some (k, acc ++ List.replicate (k - i) (Effect.sleep 1000)) := by
  intro fuel
  induction fuel with
  | zero => intro i k acc _ h2 _ _; omega
  | succ f ih =>
    intro i k acc h1 h2 h3 h4
    by_cases hik : i = k
    · subst hik
      rw [waitGo, if_pos h3]
      simp
    · have hilt : i < k := lt_of_le_of_ne h1 hik
      have hnot : ¬ heights 0 < heights i := not_lt.mpr (h4 i le_rfl hilt)
      rw [waitGo, if_neg hnot]
      rw [ih (i + 1) k (acc ++ [Effect.sleep 1000]) hilt (by omega) h3
        (fun j hj1 hj2 => h4 j (by omega) hj2)]
      rw [List.append_assoc]
      have hki : k - i = (k - (i + 1)) + 1 := by omega
      rw [hki, List.replicate_succ]
      simp

/-- C9: waitABlock returns exactly on the first height poll that reads a
value strictly greater than the baseline read, having slept once per earlier
poll; and on a height sequence that never exceeds the baseline it never
returns, whatever bound on iterations is examined. -/
theorem waitABlock_first_exceeding_poll (heights : Nat → Int) :
    (∀ k, 1 ≤ k → heights 0 < heights k →
        (∀ j, 1 ≤ j → j < k → heights j ≤ heights 0) →
        ∀ fuel, k ≤ fuel →
          waitABlockTrace heights fuel
            = some (k, List.replicate (k - 1) (Effect.sleep 1000)))
    ∧ ((∀ i, 1 ≤ i → heights i ≤ heights 0) →
        ∀ fuel, waitABlockTrace heights fuel = none) := by
  constructor
  · intro k hk hkx hbelow fuel hfuel
    have h := waitGo_reaches heights fuel 1 k [] hk (by omega) hkx
      (fun j h1 h2 => hbelow j h1 h2)
    simpa [waitABlockTrace] using h
  · intro h fuel
    exact waitGo_stuck heights fuel 1 [] (fun j hj => h j hj)

/-- Witness for C9: the exceeding reading at poll 2 of the sequence
50, 50, 60, 60, ... is returned with one sleep; the constant sequence 100
never returns within 7 iterations. -/
theorem waitABlock_first_exceeding_poll_witness :
    waitABlockTrace (fun i => if i ≤ 1 then 50 else 60) 9
        = some (2, List.replicate 1 (Effect.sleep 1000))
    ∧ waitABlockTrace (fun _ => 100) 7 = none := by
  constructor
  · exact (waitABlock_first_exceeding_poll (fun i => if i ≤ 1 then 50 else 60)).1 2
      (by decide) (by decide)
      (fun j h1 h2 => by
        have hj : j = 1 := by omega
        subst hj
        decide) 9 (by decide)
  · exact (waitABlock_first_exceeding_poll (fun _ => 100)).2
      (fun i _ => le_refl (100 : Int)) 7

/-- The height sequence of claim C3: readings 100, 100, 100, 101. -/
def heightsC3 : Nat → Int := fun i => if i ≤ 2 then 100 else 101

/-- C3: on the height sequence 100, 100, 100, 101, waitABlock returns on
its third poll after the baseline read, the poll that first observes 101,
having slept exactly twice for the fixed 1000 millisecond interval. -/
theorem waitABlock_three_polls_two_sleeps (fuel : Nat) (hfuel : 3 ≤ fuel) :
    waitABlockTrace heightsC3 fuel
      = some (3, [Effect.sleep 1000, Effect.sleep 1000]) := by
  have h := waitGo_reaches heightsC3 fuel 1 3 [] (by omega) (by omega) (by decide)
    (fun j h1 h2 => by
      interval_cases j <;> decide)
  simpa [waitABlockTrace, List.replicate] using h

/-- Witness for C3 at an iteration bound of 10. -/
theorem waitABlock_three_polls_two_sleeps_witness :
    waitABlockTrace heightsC3 10 = some (3, [Effect.sleep 1000, Effect.sleep 1000]) :=
  waitABlock_three_polls_two_sleeps 10 (by decide)

/-- Sample ABI function used by concrete witnesses. -/
def abiFnEx : AbiFunction :=
  { name := "transferFn",
    parameters := [{ name := "from", ptype := "ByteArray", value := none },
                   { name := "to", ptype := "ByteArray", value := none }] }

/-- Sample ABI description used by concrete witnesses. -/
def abiEx : AbiInfo := { functions := [abiFnEx], vmCode := "vmcode1" }

/-- Sample adapter state used by concrete witnesses: one deployed contract
named Token. -/
def ontEx : Ontology :=
  { privateKey := "pk1", accountAddress := "payer1", contractAbiInfo := [("Token", abiEx)] }

/-- C1: on a deployed contract, an invocation whose argument object has no
func field, or names a function absent from the ABI, throws the error
"not define invoke contract func!" whatever the positional argument list
holds, and leaves the adapter state unchanged. -/
theorem invoke_func_undefined_error {α β γ : Type} (ont : Ontology) (context : α)
    (contractID : String) (contractVer : β) (args : InvokeArgs) (timeout : γ)
    (abiInfo : AbiInfo)
    (hdeployed : mapGet ont.contractAbiInfo contractID = some abiInfo)
    (hfunc : args.func = none ∨ abiInfo.getFunction args.func = none) :
    invokeSmartContract ont context contractID contractVer args timeout
      = (ont, Except.error "not define invoke contract func!") := by
  have hget : abiInfo.getFunction args.func = none := by
    rcases hfunc with h | h
    · rw [h]; rfl
    · exact h
  simp [invokeSmartContract, hdeployed, hget]

/-- Witness for C1: invoking the deployed Token contract with an argument
object that has no func field fails with the specified error. -/
theorem invoke_func_undefined_error_witness :
    invokeSmartContract ontEx () "Token" "v1" { func := none, args := ["x", "y"] } 3
      = (ontEx, Except.error "not define invoke contract func!") :=
  invoke_func_undefined_error ontEx () "Token" "v1" { func := none, args := ["x", "y"] } 3
    abiEx (by rfl) (Or.inl rfl)

/-- C2 (code bug witness): at transport result -1, the shared result
callback of transfer and invokeSmartContract sets the failure flag but then
evaluates result.GetID() on the numeric transport result, so the promise
rejects with a TypeError instead of returning the failed status record the
claim describes. -/
theorem postTx_negative_result_rejects :
    postTxThen (-1) (transfer "aabb" "serialized-payload").invokeStatus
      = Except.error "TypeError: result.GetID is not a function" := rfl

/-- C6: invoking a contract name with no registry entry throws the error
"the contract doesn\x27t deploy!" synchronously: the result carries the
unchanged adapter state and a bare thrown error, with no pending submission
and hence no binding, signing or network effects. -/
theorem invoke_unknown_contract_error {α β γ : Type} (ont : Ontology) (context : α)
    (contractID : String) (contractVer : β) (args : InvokeArgs) (timeout : γ)
    (hmissing : mapGet ont.contractAbiInfo contractID = none) :
    invokeSmartContract ont context contractID contractVer args timeout
      = (ont, Except.error "the contract doesn\x27t deploy!") := by
  simp [invokeSmartContract, hmissing]

/-- Witness for C6: invoking the undeployed name Missing fails as stated. -/
theorem invoke_unknown_contract_error_witness :
    invokeSmartContract ontEx () "Missing" "v1"
        { func := some "transferFn", args := ["x"] } 3
      = (ontEx, Except.error "the contract doesn\x27t deploy!") :=
  invoke_unknown_contract_error ontEx () "Missing" "v1"
    { func := some "transferFn", args := ["x"] } 3 (by rfl)

/-- C4: the argument binding performed inside invokeSmartContract has no
side effect on the adapter: binding works on the fresh descriptor the ABI
lookup returned, so on every path, error or success, the contract registry
and every ABI description stored in it are unchanged. -/
theorem invoke_binding_preserves_registry {α β γ : Type} (ont : Ontology) (context : α)
    (contractID : String) (contractVer : β) (args : InvokeArgs) (timeout : γ) :
    (invokeSmartContract ont context contractID contractVer args timeout).1.contractAbiInfo
      = ont.contractAbiInfo := by
  have h : (invokeSmartContract ont context contractID contractVer args timeout).1 = ont := by
    unfold invokeSmartContract
    split
    · rfl
    · split
      · rfl
      · split
        · rfl
        · rfl
  rw [h]

lemma mapGet_mapSet_self (reg : Registry) (name : String) (abi : AbiInfo) :
    mapGet (mapSet reg name abi) name = some abi := by
  induction reg with
  | nil => simp [mapSet, mapGet]
  | cons hd tl ih =>
    obtain ⟨k0, v0⟩ := hd
    by_cases h : k0 = name
    · simp [mapSet, mapGet, h]
    · simp [mapSet, mapGet, h, ih]

lemma mapSet_mapSet_self (reg : Registry) (name : String) (abi1 abi2 : AbiInfo) :
    mapSet (mapSet reg name abi1) name abi2 = mapSet reg name abi2 := by
  induction reg with
  | nil => simp [mapSet]
  | cons hd tl ih =>
    obtain ⟨k0, v0⟩ := hd
    by_cases h : k0 = name
    · simp [mapSet, h]
    · simp [mapSet, h, ih]

/-- C7: looking up a name right after registering an ABI description (with
its attached bytecode) under it returns exactly that description; a second
registration under the same name replaces the first entirely, giving the
same registry a single direct registration would; and deployment of one
configured contract performs exactly such a registration, storing the parsed
ABI description with the bytecode read from the configured path. -/
theorem registry_roundtrip_replace (reg : Registry) (name : String)
    (abi1 abi2 : AbiInfo) (ont : Ontology) (fsRead : String → String)
    (parseAbi : String → AbiInfo) (item : ContractConfigItem) :
    mapGet (mapSet reg name abi1) name = some abi1
    ∧ mapSet (mapSet reg name abi1) name abi2 = mapSet reg name abi2
    ∧ (installLoop ont fsRead parseAbi [item]).1.contractAbiInfo
        = mapSet ont.contractAbiInfo item.name
            { parseAbi (fsRead item.abi) with vmCode := fsRead item.path } :=
  ⟨mapGet_mapSet_self reg name abi1, mapSet_mapSet_self reg name abi1 abi2, rfl⟩

/-- C10: the outcome of invokeSmartContract, thrown error or pending
submission with its status record alike, is the same function value
whatever context, contract version and timeout arguments, of whatever
types, the caller passes. -/
theorem invoke_independent_of_context_version_timeout
    {α₁ β₁ γ₁ α₂ β₂ γ₂ : Type} (ont : Ontology) (contractID : String)
    (args : InvokeArgs) (c₁ : α₁) (v₁ : β₁) (t₁ : γ₁) (c₂ : α₂) (v₂ : β₂) (t₂ : γ₂) :
    invokeSmartContract ont c₁ contractID v₁ args t₁
      = invokeSmartContract ont c₂ contractID v₂ args t₂ := rfl

/-- C8: when the decryption of the first account fails with any error, the
constructor fails with exactly the error "decrypt wallet failed", and no
adapter value exists, so no operation can run after the failure. -/
theorem constructor_decrypt_failure (wallet : Wallet) (password : String)
    (base64ToHex : String → String)
    (decrypt : String → String → String → String → DecryptParam → Except String String)
    (account : WalletAccount) (e : String)
    (haccount : wallet.accounts.get? 0 = some account)
    (hdecrypt : decrypt account.encryptedKey password account.address
        (base64ToHex account.salt)
        { cost := wallet.scrypt.n, blockSize := wallet.scrypt.r,
          parallel := wallet.scrypt.p, size := wallet.scrypt.dkLen }
      = Except.error e) :
    ontologyConstructor wallet password base64ToHex decrypt
        = Except.error "decrypt wallet failed"
    ∧ ∀ ont, ontologyConstructor wallet password base64ToHex decrypt ≠ Except.ok ont := by
  have haccount2 : wallet.accounts[0]? = some account := by
    simpa using haccount
  have htry : ontologyConstructorTry wallet password base64ToHex decrypt
      = Except.error e := by
    simp [ontologyConstructorTry, haccount2, hdecrypt]
  have hmain : ontologyConstructor wallet password base64ToHex decrypt
      = Except.error "decrypt wallet failed" := by
    simp [ontologyConstructor, htry]
  exact ⟨hmain, fun ont hok => by rw [hmain] at hok; exact Except.noConfusion hok⟩

/-- Sample wallet used by the C8 witness. -/
def walletEx : Wallet :=
  { accounts := [{ address := "addr1", salt := "c2FsdA==", encryptedKey := "enc1" }],
    scrypt := { n := 16384, r := 8, p := 8, dkLen := 64 } }

/-- Witness for C8: with a decryption collaborator rejecting the
passphrase, construction fails with the single specified error. -/
theorem constructor_decrypt_failure_witness :
    ontologyConstructor walletEx "badpass" (fun s => s)
        (fun _ _ _ _ _ => Except.error "wrong passphrase")
      = Except.error "decrypt wallet failed" :=
  (constructor_decrypt_failure walletEx "badpass" (fun s => s)
    (fun _ _ _ _ _ => Except.error "wrong passphrase")
    { address := "addr1", salt := "c2FsdA==", encryptedKey := "enc1" }
    "wrong passphrase" rfl rfl).1

lemma statusRecords_append (a b : List Effect) :
    statusRecords (a ++ b) = statusRecords a ++ statusRecords b := by
  simp [statusRecords]

lemma installStep_status (fsRead : String → String) (parseAbi : String → AbiInfo)
    (acc : Ontology × List Effect) (item : ContractConfigItem) :
    statusRecords (installStep fsRead parseAbi acc item).2 = statusRecords acc.2 := by
  simp [installStep, statusRecords_append, statusRecords]

lemma installFold_status (fsRead : String → String) (parseAbi : String → AbiInfo) :
    ∀ (cfg : List ContractConfigItem) (acc : Ontology × List Effect),
      statusRecords (cfg.foldl (installStep fsRead parseAbi) acc).2
        = statusRecords acc.2 := by
  intro cfg
  induction cfg with
  | nil => intro acc; rfl
  | cons hd tl ih =>
    intro acc
    rw [List.foldl_cons, ih, installStep_status]

lemma waitGo_status (heights : Nat → Int) :
    ∀ (fuel i : Nat) (acc : List Effect) (k : Nat) (tr : List Effect),
      waitGo heights fuel i acc = some (k, tr) →
      statusRecords tr = statusRecords acc := by
  intro fuel
  induction fuel with
  | zero => intro i acc k tr h; exact absurd h (by simp [waitGo])
  | succ f ih =>
    intro i acc k tr h
    rw [waitGo] at h
    by_cases hc : heights 0 < heights i
    · rw [if_pos hc] at h
      simp at h
      rw [← h.2]
    · rw [if_neg hc] at h
      have h2 := ih (i + 1) (acc ++ [Effect.sleep 1000]) k tr h
      rw [h2, statusRecords_append]
      simp [statusRecords]

lemma install_no_status (ont : Ontology) (fsRead : String → String)
    (parseAbi : String → AbiInfo) (cfg : List ContractConfigItem)
    (heights : Nat → Int) (fuel : Nat) (st2 : Ontology) (effs : List Effect)
    (h : installSmartContract ont fsRead parseAbi cfg heights fuel = some (st2, effs)) :
    statusRecords effs = [] := by
  unfold installSmartContract at h
  cases hw : waitABlockTrace heights fuel with
  | none => rw [hw] at h; exact absurd h (by simp)
  | some kp =>
    obtain ⟨k, sleeps⟩ := kp
    rw [hw] at h
    simp at h
    obtain ⟨h1, h2⟩ := h
    have hs : statusRecords sleeps = [] := by
      have hg := waitGo_status heights fuel 1 [] k sleeps
        (by simpa [waitABlockTrace] using hw)
      simpa [statusRecords] using hg
    have hl : statusRecords (installLoop ont fsRead parseAbi cfg).2 = [] := by
      have hf := installFold_status fsRead parseAbi cfg (ont, [])
      simpa [installLoop, statusRecords] using hf
    rw [← h2, statusRecords_append, hl, hs]
    rfl

lemma postTxThen_nonneg (r : Int) (hr : 0 ≤ r) (s : TxStatus) :
    postTxThen r s = Except.ok s := by
  unfold postTxThen
  rw [if_neg (by omega)]

lemma invoke_success_form {α β γ : Type} (ont : Ontology) (context : α)
    (contractID : String) (contractVer : β) (args : InvokeArgs) (timeout : γ)
    (abiInfo : AbiInfo) (abiFunc0 : AbiFunction) (fn : String)
    (hdeployed : mapGet ont.contractAbiInfo contractID = some abiInfo)
    (hfn : args.func = some fn)
    (hget : abiInfo.getFunction args.func = some abiFunc0) :
    invokeSmartContract ont context contractID contractVer args timeout
      = (ont, Except.ok (invokePending ont abiInfo abiFunc0 args.args)) := by
  rw [hfn] at hget
  simp [invokeSmartContract, hdeployed, hget, hfn]

/-- Sample deployment descriptor used by concrete witnesses. -/
def cfgItemEx : ContractConfigItem :=
  { name := "Token", version := "1.0", author := "al", email := "a@b.c",
    description := "token contract", needStorage := true,
    path := "tok.avm", abi := "tok.abi" }

/-- Sample file system used by concrete witnesses. -/
def fsEx : String → String := fun p => if p = "tok.avm" then "vmcode1" else "abijson1"

/-- Sample ABI parser used by concrete witnesses. -/
def parseAbiEx : String → AbiInfo := fun _ => { functions := [abiFnEx], vmCode := "" }

/-- Sample height sequence used by concrete witnesses: the first re-read
already exceeds the baseline. -/
def heightsEx : Nat → Int := fun i => if i = 0 then 10 else 11

/-- C5 counterexample: deploying one configured contract, a full submission
path, creates no status record at all: the deployment run completes, yet
its effect trace creates no status record, and the source method resolves
with no value, so nothing carrying a transaction hash and an outcome flag
reaches the caller on this path. -/
theorem deploy_produces_no_status_record :
    (installSmartContract ontEx fsEx parseAbiEx [cfgItemEx] heightsEx 5).isSome = true
    ∧ Option.map (fun r => statusRecords r.2)
        (installSmartContract ontEx fsEx parseAbiEx [cfgItemEx] heightsEx 5)
      = some [] := ⟨rfl, rfl⟩

/-- Sample invocation argument object used by concrete witnesses. -/
def argsEx : InvokeArgs := { func := some "transferFn", args := ["a", "b"] }

/-- C5 (amended): every invoke or transfer submission creates a status
record carrying the transaction hash (for invoke, the byte-order-reversed
hash of the signed transaction) and the default outcome flag and, when the
transport result is non-negative, returns exactly that record to the
caller; the deploy path, by contrast, creates no status record. -/
theorem submission_paths_status_records {α β γ : Type} (ont ont2 : Ontology)
    (context : α) (contractID : String) (contractVer : β) (args : InvokeArgs)
    (timeout : γ) (abiInfo : AbiInfo) (abiFunc0 : AbiFunction) (fn : String)
    (txHash txData : String) (r : Int) (fsRead : String → String)
    (parseAbi : String → AbiInfo) (cfg : List ContractConfigItem)
    (heights : Nat → Int) (fuel : Nat)
    (hdeployed : mapGet ont.contractAbiInfo contractID = some abiInfo)
    (hfn : args.func = some fn)
    (hget : abiInfo.getFunction args.func = some abiFunc0)
    (hr : 0 ≤ r) :
    ((transfer txHash txData).invokeStatus = { id := txHash, failed := false }
      ∧ Effect.mkStatus (transfer txHash txData).invokeStatus
          ∈ (transfer txHash txData).effects
      ∧ postTxThen r (transfer txHash txData).invokeStatus
          = Except.ok (transfer txHash txData).invokeStatus)
    ∧ ((invokeSmartContract ont context contractID contractVer args timeout).2
          = Except.ok (invokePending ont abiInfo abiFunc0 args.args)
      ∧ (invokePending ont abiInfo abiFunc0 args.args).invokeStatus
          = { id := reverseHex (invokeTxOf ont abiInfo abiFunc0 args.args).getHash,
              failed := false }
      ∧ Effect.mkStatus (invokePending ont abiInfo abiFunc0 args.args).invokeStatus
          ∈ (invokePending ont abiInfo abiFunc0 args.args).effects
      ∧ postTxThen r (invokePending ont abiInfo abiFunc0 args.args).invokeStatus
          = Except.ok (invokePending ont abiInfo abiFunc0 args.args).invokeStatus)
    ∧ (∀ st2 effs, installSmartContract ont2 fsRead parseAbi cfg heights fuel
          = some (st2, effs) → statusRecords effs = []) := by
  refine ⟨⟨rfl, ?_, postTxThen_nonneg r hr _⟩, ⟨?_, rfl, ?_, postTxThen_nonneg r hr _⟩, ?_⟩
  · simp [transfer]
  · have h := invoke_success_form ont context contractID contractVer args timeout
      abiInfo abiFunc0 fn hdeployed hfn hget
    rw [h]
  · simp [invokePending]
  · intro st2 effs h
    exact install_no_status ont2 fsRead parseAbi cfg heights fuel st2 effs h

/-- Witness for C5 at a concrete deployed contract, transport result 0 and
one configured deployment. -/
theorem submission_paths_status_records_witness :
    ((transfer "ab" "cd").invokeStatus = { id := "ab", failed := false }
      ∧ Effect.mkStatus (transfer "ab" "cd").invokeStatus ∈ (transfer "ab" "cd").effects
      ∧ postTxThen 0 (transfer "ab" "cd").invokeStatus
          = Except.ok (transfer "ab" "cd").invokeStatus)
    ∧ ((invokeSmartContract ontEx () "Token" "v1" argsEx 3).2
          = Except.ok (invokePending ontEx abiEx abiFnEx argsEx.args)
      ∧ (invokePending ontEx abiEx abiFnEx argsEx.args).invokeStatus
          = { id := reverseHex (invokeTxOf ontEx abiEx abiFnEx argsEx.args).getHash,
              failed := false }
      ∧ Effect.mkStatus (invokePending ontEx abiEx abiFnEx argsEx.args).invokeStatus
          ∈ (invokePending ontEx abiEx abiFnEx argsEx.args).effects
      ∧ postTxThen 0 (invokePending ontEx abiEx abiFnEx argsEx.args).invokeStatus
          = Except.ok (invokePending ontEx abiEx abiFnEx argsEx.args).invokeStatus)
    ∧ (∀ st2 effs, installSmartContract ontEx fsEx parseAbiEx [cfgItemEx] heightsEx 5
          = some (st2, effs) → statusRecords effs = []) :=
  submission_paths_status_records ontEx ontEx () "Token" "v1" argsEx 3 abiEx abiFnEx
    "transferFn" "ab" "cd" 0 fsEx parseAbiEx [cfgItemEx] heightsEx 5 rfl rfl (by rfl)
    (le_refl 0)
